import Mathlib

/-!
Shallow embedding of the socket-v session relay server.

The repository holds two near-duplicate server files implementing the same
core (`src/index.ts` and the unnamed variant `src/unnamed/part_000`, called
"V2" below; V2 additionally records a per-connection display name at join
time and includes it in `user-left` broadcasts).

Model:
* `SState` is the server state: the in-memory `sessions` registry
  (an association list `code ↦ hostId`, mirroring the JS object) and the
  per-connection contexts (`socket.id`, the ordered set `socket.rooms`,
  and `socket.data.displayName`).  A socket is always a member of its own
  id-room, mirroring socket.io.
* Handlers are pure functions `SState → args → SState × List Emission`
  (`join-session` additionally returns the acknowledgment-callback value).
  An `Emission` records the recipients resolved at emit time:
  `io.to(room)` delivers to every current member of the room,
  `socket.emit` to the caller alone, `socket.to(x)` to room `x` minus the
  caller.
* `Math.random()` is modelled by an explicit entropy supply: each
  generation attempt consumes a function `Fin 6 → Fin 36` giving the six
  character indices; the collision-retry loop walks the supply.
* The transport layer is the spec's opaque reliable channel: the
  `disconnect` pseudo-event is modelled as the handler body observing the
  caller's room membership as it stood at disconnect time, after which the
  transport destroys the connection context (`removeSocket`).
-/

namespace SocketV

/-- Payload values: strings, booleans, and opaque forwarded payloads
(playback data / sync state), identified by a tag. -/
inductive Val where
  | s : String → Val
  | b : Bool → Val
  | o : Nat → Val
deriving DecidableEq, Repr

abbrev Payload := List (String × Val)

/-- One emitted event, with the recipient set resolved at emit time. -/
structure Emission where
  recips : List String
  event : String
  payload : Payload
deriving DecidableEq, Repr

/-- Per-connection context: `socket.id`, `socket.rooms` (insertion order,
the socket's own id-room first), and `socket.data.displayName`. -/
structure SocketCtx where
  sid : String
  rooms : List String
  displayName : Option String
deriving DecidableEq, Repr

/-- Server state: the `sessions` registry (`code ↦ hostId`) and the live
connection contexts. -/
structure SState where
  sessions : List (String × String)
  sockets : List SocketCtx
deriving DecidableEq, Repr

/-- Lookup in an association list, mirroring JS object indexing. -/
def listLookup (l : List (String × String)) (code : String) : Option String :=
  (l.find? (fun p => p.1 == code)).map (fun p => p.2)

/-- `sessions[code]?.hostId` -/
def lookupSession (st : SState) (code : String) : Option String :=
  listLookup st.sessions code

/-- Truthiness of `sessions[code]`. -/
def sessionsHas (st : SState) (code : String) : Bool :=
  (lookupSession st code).isSome

def findSocket (st : SState) (sid : String) : Option SocketCtx :=
  st.sockets.find? (fun k => k.sid == sid)

/-- The members of room `code`: every connection whose `rooms` contains it. -/
def roomMembers (st : SState) (code : String) : List String :=
  (st.sockets.filter (fun k => k.rooms.contains code)).map (fun k => k.sid)

/-- `Array.from(socket.rooms).find((r) => r !== socket.id && sessions[r])` —
the membership scan resolving the caller's current session. -/
def currentCode (st : SState) (sid : String) : Option String :=
  match findSocket st sid with
  | none => none
  | some k => k.rooms.find? (fun r => r != sid && sessionsHas st r)

/-- JS assignment `sessions[code] = { hostId }`: replace the binding if the
key is present, append it otherwise. -/
def setSession (l : List (String × String)) (code hostId : String) :
    List (String × String) :=
  if code ∈ l.map Prod.fst then
    l.map (fun p => if p.1 = code then (code, hostId) else p)
  else l ++ [(code, hostId)]

/-- JS `delete sessions[code]`. -/
def deleteSession (l : List (String × String)) (code : String) :
    List (String × String) :=
  l.filter (fun p => p.1 != code)

/-- `socket.join(code)` (idempotent). -/
def joinRoom (st : SState) (sid code : String) : SState :=
  { st with sockets := st.sockets.map (fun k =>
      if k.sid = sid then
        { k with rooms := if code ∈ k.rooms then k.rooms else k.rooms ++ [code] }
      else k) }

/-- `socket.leave(code)`. -/
def leaveRoom (st : SState) (sid code : String) : SState :=
  { st with sockets := st.sockets.map (fun k =>
      if k.sid = sid then { k with rooms := k.rooms.filter (fun r => r != code) }
      else k) }

/-- Transport-level destruction of a connection context. -/
def removeSocket (st : SState) (sid : String) : SState :=
  { st with sockets := st.sockets.filter (fun k => k.sid != sid) }

/-- `socket.data.displayName = name` (V2 only). -/
def setDisplayName (st : SState) (sid name : String) : SState :=
  { st with sockets := st.sockets.map (fun k =>
      if k.sid = sid then { k with displayName := some name } else k) }

/-- `socket.emit(event, payload)`. -/
def emitSelf (sid event : String) (pl : Payload) : Emission :=
  ⟨[sid], event, pl⟩

/-- `io.to(code).emit(event, payload)` — all current members, sender included. -/
def emitRoom (st : SState) (code event : String) (pl : Payload) : Emission :=
  ⟨roomMembers st code, event, pl⟩

/-- `socket.to(target).emit(event, payload)` — room `target` minus the sender. -/
def emitRoomExcl (st : SState) (sender target event : String) (pl : Payload) :
    Emission :=
  ⟨(roomMembers st target).filter (fun x => x != sender), event, pl⟩

/-- The generator alphabet `'ABCDEFGHIJKLMNOPQRSTUVWXYZ0123456789'`. -/
def codeChars : List Char :=
  ['A', 'B', 'C', 'D', 'E', 'F', 'G', 'H', 'I', 'J', 'K', 'L', 'M',
   'N', 'O', 'P', 'Q', 'R', 'S', 'T', 'U', 'V', 'W', 'X', 'Y', 'Z',
   '0', '1', '2', '3', '4', '5', '6', '7', '8', '9']

/-- `chars[Math.floor(Math.random() * chars.length)]`. -/
def codeChar (i : Fin 36) : Char :=
  codeChars.get (Fin.cast (by decide) i)

/-- One generation attempt: six characters drawn from the alphabet. -/
def mkCode (e : Fin 6 → Fin 36) : String :=
  String.mk ((List.finRange 6).map (fun i => codeChar (e i)))

/-- `generateCode`: build a candidate; `if (sessions[code]) return generateCode()`.
The recursive retry walks an explicit entropy supply (one entry per attempt);
`none` means the supply was exhausted, which the real unbounded retry never
reports. -/
def generateCode (st : SState) : List (Fin 6 → Fin 36) → Option String
  | [] => none
  | e :: rest =>
    let code := mkCode e
    if sessionsHas st code then generateCode st rest else some code

/-- JS `String.prototype.trim` on the model's character lists (ASCII
whitespace). -/
def isWsp (c : Char) : Bool :=
  c == ' ' || c == '\t' || c == '\n' || c == '\r'

def jsTrim (s : String) : String :=
  String.mk (((s.data.dropWhile isWsp).reverse.dropWhile isWsp).reverse)

/-! ## Handlers (src/index.ts; V2 variants below where the sources differ) -/

/-- `create-session` handler. -/
def createSession (st : SState) (sid : String) (ent : List (Fin 6 → Fin 36)) :
    SState × List Emission :=
  match generateCode st ent with
  | none => (st, [])
  | some code =>
    let st1 := joinRoom st sid code
    let st2 := { st1 with sessions := setSession st1.sessions code sid }
    (st2,
     [emitSelf sid "session-created" [("code", Val.s code)],
      emitSelf sid "user-joined" [("userId", Val.s sid), ("isHost", Val.b true)]])

/-- `transfer-host` handler. -/
def transferHost (st : SState) (sid code newHostId : String) :
    SState × List Emission :=
  if code = "" ∨ ¬ sessionsHas st code then
    (st, [emitSelf sid "error" [("message", Val.s "Invalid session for host transfer")]])
  else if lookupSession st code ≠ some sid then
    (st, [emitSelf sid "error"
      [("message", Val.s "Only the current host can transfer host rights")]])
  else
    let st1 := { st with sessions := setSession st.sessions code newHostId }
    (st1, [emitRoom st1 code "host-transferred" [("newHostId", Val.s newHostId)]])

/-- `join-session` handler (index.ts variant; does not record the display
name).  The third component is the value passed to the acknowledgment
callback, `none` when no callback was supplied.  Absent input fields are
modelled as `""` (both are JS-falsy). -/
def joinSession (st : SState) (sid code name : String) (hasCb : Bool) :
    SState × List Emission × Option Bool :=
  if code = "" ∨ ¬ sessionsHas st code then
    (st, [emitSelf sid "error" [("message", Val.s "Invalid session code")]],
     if hasCb then some false else none)
  else
    let st1 := joinRoom st sid code
    let host := (lookupSession st1 code).getD ""
    let isHost := sid = host
    let displayName := if name ≠ "" ∧ jsTrim name ≠ "" then name else "Guest"
    (st1,
     [emitRoom st1 code "user-joined"
        [("userId", Val.s sid), ("name", Val.s displayName), ("isHost", Val.b isHost)],
      emitSelf sid "session-joined"
        [("code", Val.s code), ("isHost", Val.b isHost), ("name", Val.s displayName)],
      emitRoomExcl st1 sid host "request-state" [("forUser", Val.s sid)]],
     if hasCb then some true else none)

/-- `join-session` handler (V2): additionally records
`socket.data.displayName`. -/
def joinSessionV2 (st : SState) (sid code name : String) (hasCb : Bool) :
    SState × List Emission × Option Bool :=
  if code = "" ∨ ¬ sessionsHas st code then
    (st, [emitSelf sid "error" [("message", Val.s "Invalid session code")]],
     if hasCb then some false else none)
  else
    let st1 := joinRoom st sid code
    let host := (lookupSession st1 code).getD ""
    let isHost := sid = host
    let displayName := if name ≠ "" ∧ jsTrim name ≠ "" then name else "Guest"
    let st2 := setDisplayName st1 sid displayName
    (st2,
     [emitRoom st2 code "user-joined"
        [("userId", Val.s sid), ("name", Val.s displayName), ("isHost", Val.b isHost)],
      emitSelf sid "session-joined"
        [("code", Val.s code), ("isHost", Val.b isHost), ("name", Val.s displayName)],
      emitRoomExcl st2 sid host "request-state" [("forUser", Val.s sid)]],
     if hasCb then some true else none)

/-- `playback-control` handler.  `data` is the opaque forwarded payload. -/
def playbackControl (st : SState) (sid : String) (data : Nat) :
    SState × List Emission :=
  match currentCode st sid with
  | none =>
    (st, [emitSelf sid "error" [("message", Val.s "Only host can control playback")]])
  | some code =>
    if lookupSession st code ≠ some sid then
      (st, [emitSelf sid "error" [("message", Val.s "Only host can control playback")]])
    else
      (st, [emitRoom st code "playback-control" [("data", Val.o data)]])

/-- `sync-state` handler: silent no-op when the caller is not the host. -/
def syncState (st : SState) (sid : String) (data : Nat) :
    SState × List Emission :=
  match currentCode st sid with
  | none => (st, [])
  | some code =>
    if lookupSession st code ≠ some sid then (st, [])
    else (st, [emitRoom st code "sync-state" [("state", Val.o data)]])

/-- `provide-state` handler: host relays the state to `io.to(forUser)`. -/
def provideState (st : SState) (sid forUser : String) (data : Nat) :
    SState × List Emission :=
  match currentCode st sid with
  | none => (st, [])
  | some code =>
    if lookupSession st code ≠ some sid then (st, [])
    else (st, [emitRoom st forUser "sync-state" [("state", Val.o data)]])

/-- `chat-message` handler (index.ts variant):
`user: user && user.trim() ? user : 'Guest'`. -/
def chatMessage (st : SState) (sid user message time : String) :
    SState × List Emission :=
  match currentCode st sid with
  | none => (st, [])
  | some code =>
    (st, [emitRoom st code "chat-message"
      [("user", Val.s (if user ≠ "" ∧ jsTrim user ≠ "" then user else "Guest")),
       ("message", Val.s message), ("time", Val.s time)]])

/-- `socket.data.displayName` of the caller ( `none` when absent). -/
def recordedName (st : SState) (sid : String) : Option String :=
  match findSocket st sid with
  | none => none
  | some k => k.displayName

/-- `chat-message` handler (V2):
`socket.data.displayName || (user && user.trim()) || "Guest"`. -/
def chatMessageV2 (st : SState) (sid user message time : String) :
    SState × List Emission :=
  match currentCode st sid with
  | none => (st, [])
  | some code =>
    let fallback := if user ≠ "" ∧ jsTrim user ≠ "" then jsTrim user else "Guest"
    let dn := match recordedName st sid with
      | some d => if d ≠ "" then d else fallback
      | none => fallback
    (st, [emitRoom st code "chat-message"
      [("user", Val.s dn), ("message", Val.s message), ("time", Val.s time)]])

/-- `socket.data.displayName || "Guest"` (V2 leave/disconnect). -/
def leftName (st : SState) (sid : String) : String :=
  match recordedName st sid with
  | some d => if d ≠ "" then d else "Guest"
  | none => "Guest"

/-- `leave-session` handler (index.ts variant): the `user-left` payload
carries only the `userId`. -/
def leaveSession (st : SState) (sid code : String) : SState × List Emission :=
  if code = "" ∨ ¬ sessionsHas st code then (st, [])
  else
    let st1 := leaveRoom st sid code
    let userLeft := emitRoom st1 code "user-left" [("userId", Val.s sid)]
    if lookupSession st1 code = some sid then
      ({ st1 with sessions := deleteSession st1.sessions code },
       [userLeft,
        emitRoom st1 code "session-ended" [("message", Val.s "Host left the session")]])
    else (st1, [userLeft])

/-- `leave-session` handler (V2): the `user-left` payload carries the
`userId` and the recorded display name (or `"Guest"`). -/
def leaveSessionV2 (st : SState) (sid code : String) : SState × List Emission :=
  if code = "" ∨ ¬ sessionsHas st code then (st, [])
  else
    let st1 := leaveRoom st sid code
    let nm := leftName st1 sid
    let userLeft := emitRoom st1 code "user-left"
      [("userId", Val.s sid), ("name", Val.s nm)]
    if lookupSession st1 code = some sid then
      ({ st1 with sessions := deleteSession st1.sessions code },
       [userLeft,
        emitRoom st1 code "session-ended" [("message", Val.s "Host left the session")]])
    else (st1, [userLeft])

/-- `disconnect` pseudo-event (index.ts variant): the handler body runs with
the caller's rooms as they stood at disconnect time, then the transport
destroys the connection context. -/
def disconnect (st : SState) (sid : String) : SState × List Emission :=
  match currentCode st sid with
  | none => (removeSocket st sid, [])
  | some code =>
    let userLeft := emitRoom st code "user-left" [("userId", Val.s sid)]
    if lookupSession st code = some sid then
      (removeSocket { st with sessions := deleteSession st.sessions code } sid,
       [userLeft,
        emitRoom st code "session-ended" [("message", Val.s "Host left the session")]])
    else (removeSocket st sid, [userLeft])

/-- `disconnect` pseudo-event (V2): `user-left` additionally carries the
recorded display name. -/
def disconnectV2 (st : SState) (sid : String) : SState × List Emission :=
  match currentCode st sid with
  | none => (removeSocket st sid, [])
  | some code =>
    let nm := leftName st sid
    let userLeft := emitRoom st code "user-left"
      [("userId", Val.s sid), ("name", Val.s nm)]
    if lookupSession st code = some sid then
      (removeSocket { st with sessions := deleteSession st.sessions code } sid,
       [userLeft,
        emitRoom st code "session-ended" [("message", Val.s "Host left the session")]])
    else (removeSocket st sid, [userLeft])

/-! ## Event stream semantics (index.ts handlers) -/

inductive Event where
  | connect (sid : String)
  | createSession (sid : String) (ent : List (Fin 6 → Fin 36))
  | transferHost (sid code newHostId : String)
  | joinSession (sid code name : String) (hasCb : Bool)
  | playbackControl (sid : String) (data : Nat)
  | syncState (sid : String) (data : Nat)
  | provideState (sid forUser : String) (data : Nat)
  | chatMessage (sid user message time : String)
  | leaveSession (sid code : String)
  | disconnect (sid : String)

/-- State transition of one inbound event.  A fresh connection context
starts as a member of its own id-room with no display name. -/
def applyEvent (st : SState) : Event → SState
  | .connect sid => { st with sockets := st.sockets ++ [⟨sid, [sid], none⟩] }
  | .createSession sid ent => (createSession st sid ent).1
  | .transferHost sid code n => (transferHost st sid code n).1
  | .joinSession sid code name cb => (joinSession st sid code name cb).1
  | .playbackControl sid d => (playbackControl st sid d).1
  | .syncState sid d => (syncState st sid d).1
  | .provideState sid f d => (provideState st sid f d).1
  | .chatMessage sid u m t => (chatMessage st sid u m t).1
  | .leaveSession sid code => (leaveSession st sid code).1
  | .disconnect sid => (disconnect st sid).1

def initState : SState := ⟨[], []⟩

/-- The state reached by a finite inbound event stream. -/
def run (evs : List Event) : SState := evs.foldl applyEvent initState

/-- The active sessions the given participant is currently a member of. -/
def memberSessions (st : SState) (sid : String) : List String :=
  match findSocket st sid with
  | none => []
  | some k => k.rooms.filter (fun r => r != sid && sessionsHas st r)

/-! ## Specification-side definitions (for refinement comparisons) -/

/-- Display-name precedence of the V2 `chat-message` broadcast, written from
the spec's words as amended: the caller's recorded display name when one was
recorded, else the trimmed supplied `user` field when it is non-blank, else
`"Guest"`. -/
def chatNameSpec (recorded : Option String) (user : String) : String :=
  match recorded with
  | some d => d
  | none => if jsTrim user ≠ "" then jsTrim user else "Guest"

/-- Display-name rule of the index.ts `chat-message` broadcast, written from
the spec's words: the supplied `user` field verbatim when it is non-blank,
else `"Guest"` (this variant records no display names). -/
def chatNameSpecV1 (user : String) : String :=
  if jsTrim user ≠ "" then user else "Guest"

/-! ## Concrete states and traces used by witnesses and counterexamples -/

/-- A session `"AAAAAA"` hosted by `"h"` with one guest `"g"` whose display
name `"Sam"` was recorded at join time (the host, who only created, has
none recorded). -/
def stW : SState :=
  ⟨[("AAAAAA", "h")],
   [⟨"h", ["h", "AAAAAA"], none⟩, ⟨"g", ["g", "AAAAAA"], some "Sam"⟩]⟩

/-- Two live sessions `"AAAAAA"` (host `"h1"`) and `"BBBBBB"` (host `"h2"`). -/
def st9 : SState :=
  ⟨[("AAAAAA", "h1"), ("BBBBBB", "h2")],
   [⟨"h1", ["h1", "AAAAAA"], none⟩, ⟨"h2", ["h2", "BBBBBB"], none⟩]⟩

/-- Create a session, then the host leaves, retiring its code. -/
def reissueTrace : List Event :=
  [.connect "h", .createSession "h" [fun _ => (0 : Fin 36)],
   .leaveSession "h" "AAAAAA"]

/-- `"h1"` creates a session, then joins `"h2"`'s session without leaving. -/
def doubleJoinTrace : List Event :=
  [.connect "h1", .createSession "h1" [fun _ => (0 : Fin 36)],
   .connect "h2", .createSession "h2" [fun _ => (1 : Fin 36)],
   .joinSession "h1" "BBBBBB" "Sam" true]

/-- `"h"` joins `"a"`'s session `"AAAAAA"` first and then creates its own
session `"BBBBBB"`, so `"AAAAAA"` precedes `"BBBBBB"` in `"h"`'s
`socket.rooms` and the disconnect membership scan resolves `"AAAAAA"`. -/
def hostDisconnectTrace : List Event :=
  [.connect "a", .createSession "a" [fun _ => (0 : Fin 36)],
   .connect "h", .joinSession "h" "AAAAAA" "Hank" true,
   .createSession "h" [fun _ => (1 : Fin 36)]]

/-! ## Registry lemmas -/

theorem listLookup_cons (p : String × String) (t : List (String × String))
    (c : String) :
    listLookup (p :: t) c = if p.1 = c then some p.2 else listLookup t c := by
  by_cases hp : p.1 = c <;> simp [listLookup, List.find?_cons, hp]

theorem listLookup_eq_none (l : List (String × String)) (c : String) :
    listLookup l c = none ↔ c ∉ l.map Prod.fst := by
  unfold listLookup
  rw [Option.map_eq_none', List.find?_eq_none]
  constructor
  · intro h hmem
    rcases List.mem_map.mp hmem with ⟨p, hp, hpc⟩
    exact h p hp (by simp [hpc])
  · intro h p hp hpc
    exact h (List.mem_map.mpr ⟨p, hp, by simpa using hpc⟩)

theorem listLookup_map_update (l : List (String × String)) (c n : String) :
    c ∈ l.map Prod.fst →
    listLookup (l.map (fun p => if p.1 = c then (c, n) else p)) c = some n := by
  induction l with
  | nil => intro h; simp at h
  | cons p t ih =>
    intro h
    by_cases hp : p.1 = c
    · simp [listLookup, List.find?_cons, hp]
    · have ht : c ∈ t.map Prod.fst := by
        rcases List.mem_map.mp h with ⟨q, hq, hqc⟩
        rcases List.mem_cons.mp hq with rfl | hq
        · exact absurd hqc hp
        · exact List.mem_map.mpr ⟨q, hq, hqc⟩
      have := ih ht
      simpa [listLookup, List.find?_cons, hp, Ne.symm hp] using this

theorem listLookup_append_single (l : List (String × String)) (c n : String) :
    c ∉ l.map Prod.fst →
    listLookup (l ++ [(c, n)]) c = some n := by
  induction l with
  | nil => intro _; simp [listLookup]
  | cons p t ih =>
    intro h
    have hp : p.1 ≠ c := by
      intro hc
      exact h (List.mem_map.mpr ⟨p, List.mem_cons_self _ _, hc⟩)
    have ht : c ∉ t.map Prod.fst := by
      intro hc
      rcases List.mem_map.mp hc with ⟨q, hq, hqc⟩
      exact h (List.mem_map.mpr ⟨q, List.mem_cons_of_mem _ hq, hqc⟩)
    simpa [listLookup, List.find?_cons, hp] using ih ht

theorem listLookup_setSession_self (l : List (String × String)) (c n : String) :
    listLookup (setSession l c n) c = some n := by
  unfold setSession
  split
  · exact listLookup_map_update l c n (by assumption)
  · exact listLookup_append_single l c n (by assumption)

theorem keys_setSession_of_mem (l : List (String × String)) (c n : String)
    (h : c ∈ l.map Prod.fst) :
    (setSession l c n).map Prod.fst = l.map Prod.fst := by
  simp only [setSession, if_pos h, List.map_map]
  apply List.map_congr_left
  intro p _
  by_cases hp : p.1 = c <;> simp [hp]

theorem keys_setSession_of_not_mem (l : List (String × String)) (c n : String)
    (h : c ∉ l.map Prod.fst) :
    (setSession l c n).map Prod.fst = l.map Prod.fst ++ [c] := by
  simp [setSession, if_neg h]

theorem listLookup_deleteSession_self (l : List (String × String)) (c : String) :
    listLookup (deleteSession l c) c = none := by
  rw [Option.eq_none_iff_forall_not_mem]
  intro a ha
  simp only [listLookup, deleteSession, Option.mem_def, Option.map_eq_some'] at ha
  rcases ha with ⟨p, hp, _⟩
  have := List.find?_some hp
  have hmem := List.mem_filter.mp (List.mem_of_find?_eq_some hp)
  simp [beq_iff_eq] at this
  simp [bne_iff_ne] at hmem
  exact hmem.2 this

theorem listLookup_deleteSession_ne (l : List (String × String)) (c c' : String)
    (h : c' ≠ c) :
    listLookup (deleteSession l c) c' = listLookup l c' := by
  induction l with
  | nil => rfl
  | cons p t ih =>
    simp only [deleteSession, List.filter_cons] at ih ⊢
    by_cases hp : p.1 = c
    · rw [if_neg (by simp [hp]), ih, listLookup_cons,
        if_neg (by rw [hp]; exact Ne.symm h)]
    · rw [if_pos (by simp [hp]), listLookup_cons, listLookup_cons, ih]

theorem keys_deleteSession_sublist (l : List (String × String)) (c : String) :
    ((deleteSession l c).map Prod.fst).Sublist (l.map Prod.fst) :=
  (List.filter_sublist l).map Prod.fst

theorem mem_keys_of_isSome (l : List (String × String)) (c : String)
    (h : (listLookup l c).isSome) : c ∈ l.map Prod.fst := by
  by_contra hc
  rw [(listLookup_eq_none l c).mpr hc] at h
  simp at h

/-! ## Socket and room lemmas -/

theorem findSocket_map (st : SState) (sid : String) (f : SocketCtx → SocketCtx)
    (hf : ∀ k, (f k).sid = k.sid) :
    findSocket { st with sockets := st.sockets.map f } sid
      = (findSocket st sid).map f := by
  show (st.sockets.map f).find? (fun k => k.sid == sid)
      = (st.sockets.find? (fun k => k.sid == sid)).map f
  rw [List.find?_map]
  have hp : ((fun k : SocketCtx => k.sid == sid) ∘ f) = (fun k => k.sid == sid) := by
    funext k
    simp [Function.comp, hf]
  rw [hp]

theorem recordedName_leaveRoom (st : SState) (s c sid : String) :
    recordedName (leaveRoom st s c) sid = recordedName st sid := by
  unfold recordedName
  rw [show leaveRoom st s c = { st with sockets := st.sockets.map (fun k =>
        if k.sid = s then { k with rooms := k.rooms.filter (fun r => r != c) }
        else k) } from rfl,
    findSocket_map st sid _ (by intro k; by_cases h : k.sid = s <;> simp [h])]
  cases hk : findSocket st sid with
  | none => simp
  | some k => by_cases h : k.sid = s <;> simp [h]

theorem leftName_leaveRoom (st : SState) (s c sid : String) :
    leftName (leaveRoom st s c) sid = leftName st sid := by
  unfold leftName
  rw [recordedName_leaveRoom]

theorem mem_roomMembers_leaveRoom (st : SState) (sid code m : String)
    (hm : m ∈ roomMembers st code) (hne : m ≠ sid) :
    m ∈ roomMembers (leaveRoom st sid code) code := by
  unfold roomMembers at hm ⊢
  rcases List.mem_map.mp hm with ⟨k, hk, rfl⟩
  have hk' := List.mem_filter.mp hk
  have hks : ¬ k.sid = sid := hne
  apply List.mem_map.mpr
  refine ⟨k, List.mem_filter.mpr ⟨?_, hk'.2⟩, rfl⟩
  show k ∈ (leaveRoom st sid code).sockets
  exact List.mem_map.mpr ⟨k, hk'.1, if_neg hks⟩

/-! ## Code-generator lemmas -/

theorem mkCode_length (e : Fin 6 → Fin 36) : (mkCode e).length = 6 := by
  simp [mkCode, String.length]

theorem mkCode_mem_codeChars (e : Fin 6 → Fin 36) :
    ∀ ch ∈ (mkCode e).data, ch ∈ codeChars := by
  intro ch hch
  rcases List.mem_map.mp hch with ⟨i, _, rfl⟩
  exact List.get_mem _ _ _

theorem generateCode_fresh (st : SState) (ent : List (Fin 6 → Fin 36))
    (code : String) (h : generateCode st ent = some code) :
    code.length = 6 ∧ (∀ ch ∈ code.data, ch ∈ codeChars) ∧
      lookupSession st code = none := by
  induction ent with
  | nil => simp [generateCode] at h
  | cons e rest ih =>
    simp only [generateCode] at h
    by_cases hc : sessionsHas st (mkCode e) = true
    · rw [if_pos hc] at h
      exact ih h
    · rw [if_neg hc] at h
      cases h
      refine ⟨mkCode_length e, mkCode_mem_codeChars e, ?_⟩
      simp only [sessionsHas] at hc
      rw [← Option.not_isSome_iff_eq_none]
      exact fun hs => hc hs

/-! ## State-preservation lemmas -/

theorem playbackControl_state (st : SState) (sid : String) (d : Nat) :
    (playbackControl st sid d).1 = st := by
  cases hc : currentCode st sid with
  | none => simp [playbackControl, hc]
  | some code =>
    simp only [playbackControl, hc]
    split <;> rfl

theorem syncState_state (st : SState) (sid : String) (d : Nat) :
    (syncState st sid d).1 = st := by
  cases hc : currentCode st sid with
  | none => simp [syncState, hc]
  | some code =>
    simp only [syncState, hc]
    split <;> rfl

theorem provideState_state (st : SState) (sid f : String) (d : Nat) :
    (provideState st sid f d).1 = st := by
  cases hc : currentCode st sid with
  | none => simp [provideState, hc]
  | some code =>
    simp only [provideState, hc]
    split <;> rfl

theorem chatMessage_state (st : SState) (sid u m t : String) :
    (chatMessage st sid u m t).1 = st := by
  cases hc : currentCode st sid with
  | none => simp [chatMessage, hc]
  | some code => simp [chatMessage, hc]

theorem chatMessageV2_state (st : SState) (sid u m t : String) :
    (chatMessageV2 st sid u m t).1 = st := by
  cases hc : currentCode st sid with
  | none => simp [chatMessageV2, hc]
  | some code => simp [chatMessageV2, hc]

/-! ## Registry-key uniqueness invariant -/

/-- The codes of the currently active sessions are pairwise distinct. -/
def registryKeysNodup (st : SState) : Prop :=
  (st.sessions.map Prod.fst).Nodup

theorem registryKeysNodup_applyEvent (st : SState) (ev : Event)
    (h : registryKeysNodup st) : registryKeysNodup (applyEvent st ev) := by
  cases ev with
  | connect sid => exact h
  | createSession sid ent =>
    simp only [applyEvent, createSession]
    cases hg : generateCode st ent with
    | none => exact h
    | some code =>
      have hfresh := (generateCode_fresh st ent code hg).2.2
      have hnot : code ∉ st.sessions.map Prod.fst :=
        (listLookup_eq_none _ _).mp hfresh
      show ((setSession (joinRoom st sid code).sessions code sid).map Prod.fst).Nodup
      rw [show (joinRoom st sid code).sessions = st.sessions from rfl,
        keys_setSession_of_not_mem st.sessions code sid hnot]
      rw [List.nodup_append]
      refine ⟨h, List.nodup_singleton code, ?_⟩
      intro a ha hb
      rw [List.mem_singleton] at hb
      exact hnot (hb ▸ ha)
  | transferHost sid code n =>
    simp only [applyEvent, transferHost]
    split
    · exact h
    · split
      · exact h
      · rename_i hvalid _
        push_neg at hvalid
        have hmem : code ∈ st.sessions.map Prod.fst := by
          apply mem_keys_of_isSome
          have := hvalid.2
          simpa [sessionsHas] using this
        show ((setSession st.sessions code n).map Prod.fst).Nodup
        rw [keys_setSession_of_mem st.sessions code n hmem]
        exact h
  | joinSession sid code name cb =>
    simp only [applyEvent, joinSession]
    split
    · exact h
    · exact h
  | playbackControl sid d =>
    simpa only [applyEvent, playbackControl_state] using h
  | syncState sid d =>
    simpa only [applyEvent, syncState_state] using h
  | provideState sid f d =>
    simpa only [applyEvent, provideState_state] using h
  | chatMessage sid u m t =>
    simpa only [applyEvent, chatMessage_state] using h
  | leaveSession sid code =>
    simp only [applyEvent, leaveSession]
    split
    · exact h
    · split
      · exact (keys_deleteSession_sublist _ _).nodup h
      · exact h
  | disconnect sid =>
    simp only [applyEvent, disconnect]
    cases hc : currentCode st sid with
    | none => exact h
    | some code =>
      simp only
      split
      · exact (keys_deleteSession_sublist _ _).nodup h
      · exact h

theorem registryKeysNodup_run (evs : List Event) :
    registryKeysNodup (run evs) := by
  suffices hgen : ∀ st, registryKeysNodup st →
      registryKeysNodup (evs.foldl applyEvent st) from
    hgen initState (by simp [registryKeysNodup, initState])
  induction evs with
  | nil => intro st h; exact h
  | cons e t ih =>
    intro st h
    exact ih _ (registryKeysNodup_applyEvent st e h)

/-! ## Miscellaneous helper lemmas -/

theorem jsTrim_ne_empty_iff (u : String) :
    (u ≠ "" ∧ jsTrim u ≠ "") ↔ jsTrim u ≠ "" := by
  constructor
  · exact fun hc => hc.2
  · intro hc
    refine ⟨?_, hc⟩
    intro hu
    subst hu
    exact hc rfl

/-! ## Claims -/

/-- C10: a caller that belongs to no active session who sends
`playback-control` receives, alone, the same NotHost error used for
non-host members (`"Only host can control playback"`), with no broadcast
and the Registry (indeed the whole state) unchanged. -/
theorem C10_playback_without_session_not_host_error :
    ∀ st sid d, currentCode st sid = none →
      playbackControl st sid d =
        (st, [emitSelf sid "error"
          [("message", Val.s "Only host can control playback")]]) := by
  intro st sid d hc
  simp [playbackControl, hc]

theorem C10_witness :
    currentCode stW "x" = none ∧
    playbackControl stW "x" 0 =
      (stW, [emitSelf "x" "error"
        [("message", Val.s "Only host can control playback")]]) :=
  ⟨by decide, C10_playback_without_session_not_host_error stW "x" 0 (by decide)⟩

/-- C7: for a caller that is not the host of its resolved session (or is in
no session), `sync-state` is a silent no-op (no broadcast, no error to
anyone, state unchanged), whereas `playback-control` from the same caller
emits an error event to the caller. -/
theorem C7_sync_state_silent_for_nonhost :
    ∀ st sid d,
      (∀ c, currentCode st sid = some c → lookupSession st c ≠ some sid) →
      syncState st sid d = (st, []) ∧
      playbackControl st sid d =
        (st, [emitSelf sid "error"
          [("message", Val.s "Only host can control playback")]]) := by
  intro st sid d hna
  cases hc : currentCode st sid with
  | none => exact ⟨by simp [syncState, hc], by simp [playbackControl, hc]⟩
  | some c =>
    have hne := hna c hc
    constructor
    · simp only [syncState, hc]
      rw [if_pos hne]
    · simp only [playbackControl, hc]
      rw [if_pos hne]

theorem C7_witness :
    syncState stW "g" 0 = (stW, []) ∧
    playbackControl stW "g" 0 =
      (stW, [emitSelf "g" "error"
        [("message", Val.s "Only host can control playback")]]) :=
  C7_sync_state_silent_for_nonhost stW "g" 0 (by
    intro c hc
    have h1 : currentCode stW "g" = some "AAAAAA" := by decide
    rw [h1] at hc
    cases hc
    decide)

/-- C3: `join-session` with an unknown (or absent/empty) code invokes the
acknowledgment callback with `false` when one was supplied, emits the
`InvalidSession` error to the caller only, never acknowledges success,
mutates nothing, and broadcasts nothing to any room. -/
theorem C3_join_unknown_code_fails :
    ∀ st sid code name cb,
      code = "" ∨ lookupSession st code = none →
      joinSession st sid code name cb =
        (st, [emitSelf sid "error" [("message", Val.s "Invalid session code")]],
         if cb then some false else none) ∧
      (joinSession st sid code name cb).2.2 ≠ some true := by
  intro st sid code name cb hun
  have hcond : code = "" ∨ ¬ sessionsHas st code := by
    rcases hun with hu | hu
    · exact Or.inl hu
    · exact Or.inr (by simp [sessionsHas, hu])
  constructor
  · simp only [joinSession, if_pos hcond]
  · simp only [joinSession, if_pos hcond]
    cases cb <;> simp

theorem C3_witness :
    joinSession stW "g" "ZZZZZZ" "Sam" true =
      (stW, [emitSelf "g" "error" [("message", Val.s "Invalid session code")]],
       if true then some false else none) :=
  (C3_join_unknown_code_fails stW "g" "ZZZZZZ" "Sam" true (Or.inr (by decide))).1

/-- C2: a caller whose connection id differs from a session's recorded
`hostId` cannot perform `transfer-host` on it, nor `playback-control` or
`provide-state` while that session is the caller's resolved one: the state
(hence `hostId` and room membership) is left unchanged, and the only
emission, if any, is an error to the caller alone — the requested event is
never broadcast. -/
theorem C2_nonhost_requests_are_noops :
    (∀ st sid code host n,
      lookupSession st code = some host → sid ≠ host →
      (transferHost st sid code n).1 = st ∧
      ∀ e ∈ (transferHost st sid code n).2,
        e.event = "error" ∧ e.recips = [sid]) ∧
    (∀ st sid code host d,
      lookupSession st code = some host → sid ≠ host →
      currentCode st sid = some code →
      (playbackControl st sid d).1 = st ∧
      ∀ e ∈ (playbackControl st sid d).2,
        e.event = "error" ∧ e.recips = [sid]) ∧
    (∀ st sid code host f d,
      lookupSession st code = some host → sid ≠ host →
      currentCode st sid = some code →
      provideState st sid f d = (st, [])) := by
  refine ⟨?_, ?_, ?_⟩
  · intro st sid code host n hl hne
    have hns : lookupSession st code ≠ some sid := by
      rw [hl]
      intro hx
      exact hne (Option.some.inj hx).symm
    unfold transferHost
    by_cases hcond : code = "" ∨ ¬ sessionsHas st code
    · rw [if_pos hcond]
      refine ⟨rfl, ?_⟩
      intro e he
      rw [List.mem_singleton] at he
      subst he
      exact ⟨rfl, rfl⟩
    · rw [if_neg hcond, if_pos hns]
      refine ⟨rfl, ?_⟩
      intro e he
      rw [List.mem_singleton] at he
      subst he
      exact ⟨rfl, rfl⟩
  · intro st sid code host d hl hne hcc
    have hns : lookupSession st code ≠ some sid := by
      rw [hl]
      intro hx
      exact hne (Option.some.inj hx).symm
    simp only [playbackControl, hcc]
    rw [if_pos hns]
    refine ⟨rfl, ?_⟩
    intro e he
    rw [List.mem_singleton] at he
    subst he
    exact ⟨rfl, rfl⟩
  · intro st sid code host f d hl hne hcc
    have hns : lookupSession st code ≠ some sid := by
      rw [hl]
      intro hx
      exact hne (Option.some.inj hx).symm
    simp only [provideState, hcc]
    rw [if_pos hns]

theorem C2_witness :
    lookupSession stW "AAAAAA" = some "h" ∧
    (transferHost stW "g" "AAAAAA" "g").1 = stW ∧
    (playbackControl stW "g" 0).1 = stW ∧
    provideState stW "g" "h" 0 = (stW, []) :=
  ⟨by decide,
   (C2_nonhost_requests_are_noops.1 stW "g" "AAAAAA" "h" "g"
     (by decide) (by decide)).1,
   (C2_nonhost_requests_are_noops.2.1 stW "g" "AAAAAA" "h" 0
     (by decide) (by decide) (by decide)).1,
   C2_nonhost_requests_are_noops.2.2 stW "g" "AAAAAA" "h" "h" 0
     (by decide) (by decide) (by decide)⟩

/-- C1 counterexample: host departure by *disconnect* does not always end
the session.  In the reachable state of `hostDisconnectTrace`, `"h"` hosts
`"BBBBBB"` but joined `"AAAAAA"` earlier, so its disconnect scan resolves
`"AAAAAA"`: `"BBBBBB"` survives in the Registry with its dead host and the
only emission is a `user-left` — no `session-ended`.  Likewise, after
`transfer-host` of `"AAAAAA"` to the connected non-member `"h2"`, `"h2"`'s
disconnect scan resolves its own session `"BBBBBB"` and `"AAAAAA"`
survives its host's disconnect. -/
theorem C1_counterexample :
    lookupSession (run hostDisconnectTrace) "BBBBBB" = some "h" ∧
    lookupSession (disconnect (run hostDisconnectTrace) "h").1 "BBBBBB" =
      some "h" ∧
    (disconnect (run hostDisconnectTrace) "h").2.map Emission.event =
      ["user-left"] ∧
    lookupSession (transferHost st9 "h1" "AAAAAA" "h2").1 "AAAAAA" =
      some "h2" ∧
    lookupSession
      (disconnect (transferHost st9 "h1" "AAAAAA" "h2").1 "h2").1 "AAAAAA" =
      some "h2" :=
  ⟨by decide, by decide, by decide, by decide, by decide⟩

/-- C1 (amended): in both variants, a host's `leave-session` with the
session's code always deletes the session from the Registry and delivers
`session-ended` to every remaining (pre-removal) member.  A host's
*disconnect* does so only when the disconnect membership scan resolves
that session; when the scan resolves nothing, or resolves a different
session, every other session's Registry entry — including one whose
recorded host is the disconnecting socket — survives unchanged.  A
non-host's leave or disconnect never removes the session. -/
theorem C1_host_departure_ends_session :
    (∀ st sid code, code ≠ "" → lookupSession st code = some sid →
      lookupSession (leaveSession st sid code).1 code = none ∧
      ∃ e ∈ (leaveSession st sid code).2, e.event = "session-ended" ∧
        ∀ m ∈ roomMembers st code, m ≠ sid → m ∈ e.recips) ∧
    (∀ st sid code, code ≠ "" → lookupSession st code = some sid →
      lookupSession (leaveSessionV2 st sid code).1 code = none ∧
      ∃ e ∈ (leaveSessionV2 st sid code).2, e.event = "session-ended" ∧
        ∀ m ∈ roomMembers st code, m ≠ sid → m ∈ e.recips) ∧
    (∀ st sid code, currentCode st sid = some code →
      lookupSession st code = some sid →
      lookupSession (disconnect st sid).1 code = none ∧
      ∃ e ∈ (disconnect st sid).2, e.event = "session-ended" ∧
        ∀ m ∈ roomMembers st code, m ≠ sid → m ∈ e.recips) ∧
    (∀ st sid code, currentCode st sid = some code →
      lookupSession st code = some sid →
      lookupSession (disconnectV2 st sid).1 code = none ∧
      ∃ e ∈ (disconnectV2 st sid).2, e.event = "session-ended" ∧
        ∀ m ∈ roomMembers st code, m ≠ sid → m ∈ e.recips) ∧
    (∀ st sid code, currentCode st sid = none →
      lookupSession (disconnect st sid).1 code = lookupSession st code) ∧
    (∀ st sid code, currentCode st sid = none →
      lookupSession (disconnectV2 st sid).1 code = lookupSession st code) ∧
    (∀ st sid code c, currentCode st sid = some c → code ≠ c →
      lookupSession (disconnect st sid).1 code = lookupSession st code) ∧
    (∀ st sid code c, currentCode st sid = some c → code ≠ c →
      lookupSession (disconnectV2 st sid).1 code = lookupSession st code) ∧
    (∀ st sid code ho, lookupSession st code = some ho → ho ≠ sid →
      lookupSession (leaveSession st sid code).1 code = some ho) ∧
    (∀ st sid code ho, lookupSession st code = some ho → ho ≠ sid →
      lookupSession (leaveSessionV2 st sid code).1 code = some ho) ∧
    (∀ st sid code ho, lookupSession st code = some ho → ho ≠ sid →
      lookupSession (disconnect st sid).1 code = some ho) ∧
    (∀ st sid code ho, lookupSession st code = some ho → ho ≠ sid →
      lookupSession (disconnectV2 st sid).1 code = some ho) := by
  refine ⟨?_, ?_, ?_, ?_, ?_, ?_, ?_, ?_, ?_, ?_, ?_, ?_⟩
  · intro st sid code hcode hl
    have hcond : ¬ (code = "" ∨ ¬ sessionsHas st code) := by
      push_neg
      exact ⟨hcode, by simp [sessionsHas, hl]⟩
    have hpos : lookupSession (leaveRoom st sid code) code = some sid := hl
    simp only [leaveSession, if_neg hcond, if_pos hpos]
    constructor
    · exact listLookup_deleteSession_self st.sessions code
    · refine ⟨emitRoom (leaveRoom st sid code) code "session-ended"
        [("message", Val.s "Host left the session")],
        List.mem_cons_of_mem _ (List.mem_cons_self _ _), rfl, ?_⟩
      intro m hm hmne
      exact mem_roomMembers_leaveRoom st sid code m hm hmne
  · intro st sid code hcode hl
    have hcond : ¬ (code = "" ∨ ¬ sessionsHas st code) := by
      push_neg
      exact ⟨hcode, by simp [sessionsHas, hl]⟩
    have hpos : lookupSession (leaveRoom st sid code) code = some sid := hl
    simp only [leaveSessionV2, if_neg hcond, if_pos hpos]
    constructor
    · exact listLookup_deleteSession_self st.sessions code
    · refine ⟨emitRoom (leaveRoom st sid code) code "session-ended"
        [("message", Val.s "Host left the session")],
        List.mem_cons_of_mem _ (List.mem_cons_self _ _), rfl, ?_⟩
      intro m hm hmne
      exact mem_roomMembers_leaveRoom st sid code m hm hmne
  · intro st sid code hcc hl
    simp only [disconnect, hcc, if_pos hl]
    constructor
    · exact listLookup_deleteSession_self st.sessions code
    · exact ⟨emitRoom st code "session-ended"
        [("message", Val.s "Host left the session")],
        List.mem_cons_of_mem _ (List.mem_cons_self _ _), rfl,
        fun m hm _ => hm⟩
  · intro st sid code hcc hl
    simp only [disconnectV2, hcc, if_pos hl]
    constructor
    · exact listLookup_deleteSession_self st.sessions code
    · exact ⟨emitRoom st code "session-ended"
        [("message", Val.s "Host left the session")],
        List.mem_cons_of_mem _ (List.mem_cons_self _ _), rfl,
        fun m hm _ => hm⟩
  · intro st sid code hcc
    simp only [disconnect, hcc]
    rfl
  · intro st sid code hcc
    simp only [disconnectV2, hcc]
    rfl
  · intro st sid code c hcc hne
    simp only [disconnect, hcc]
    by_cases hhost : lookupSession st c = some sid
    · rw [if_pos hhost]
      show listLookup (deleteSession st.sessions c) code =
        listLookup st.sessions code
      exact listLookup_deleteSession_ne st.sessions c code hne
    · rw [if_neg hhost]
      rfl
  · intro st sid code c hcc hne
    simp only [disconnectV2, hcc]
    by_cases hhost : lookupSession st c = some sid
    · rw [if_pos hhost]
      show listLookup (deleteSession st.sessions c) code =
        listLookup st.sessions code
      exact listLookup_deleteSession_ne st.sessions c code hne
    · rw [if_neg hhost]
      rfl
  · intro st sid code ho hl hne
    by_cases hcond : code = "" ∨ ¬ sessionsHas st code
    · simp only [leaveSession, if_pos hcond]
      exact hl
    · have hns : ¬ (lookupSession (leaveRoom st sid code) code = some sid) := by
        show ¬ (lookupSession st code = some sid)
        rw [hl]
        intro hx
        exact hne (Option.some.inj hx)
      simp only [leaveSession, if_neg hcond, if_neg hns]
      exact hl
  · intro st sid code ho hl hne
    by_cases hcond : code = "" ∨ ¬ sessionsHas st code
    · simp only [leaveSessionV2, if_pos hcond]
      exact hl
    · have hns : ¬ (lookupSession (leaveRoom st sid code) code = some sid) := by
        show ¬ (lookupSession st code = some sid)
        rw [hl]
        intro hx
        exact hne (Option.some.inj hx)
      simp only [leaveSessionV2, if_neg hcond, if_neg hns]
      exact hl
  · intro st sid code ho hl hne
    cases hcc : currentCode st sid with
    | none =>
      simp only [disconnect, hcc]
      exact hl
    | some c =>
      simp only [disconnect, hcc]
      by_cases hhost : lookupSession st c = some sid
      · rw [if_pos hhost]
        have hcne : code ≠ c := by
          intro heq
          rw [heq] at hl
          rw [hl] at hhost
          exact hne (Option.some.inj hhost)
        show listLookup (deleteSession st.sessions c) code = some ho
        rw [listLookup_deleteSession_ne st.sessions c code hcne]
        exact hl
      · rw [if_neg hhost]
        exact hl
  · intro st sid code ho hl hne
    cases hcc : currentCode st sid with
    | none =>
      simp only [disconnectV2, hcc]
      exact hl
    | some c =>
      simp only [disconnectV2, hcc]
      by_cases hhost : lookupSession st c = some sid
      · rw [if_pos hhost]
        have hcne : code ≠ c := by
          intro heq
          rw [heq] at hl
          rw [hl] at hhost
          exact hne (Option.some.inj hhost)
        show listLookup (deleteSession st.sessions c) code = some ho
        rw [listLookup_deleteSession_ne st.sessions c code hcne]
        exact hl
      · rw [if_neg hhost]
        exact hl

theorem C1_witness :
    lookupSession stW "AAAAAA" = some "h" ∧
    lookupSession (leaveSession stW "h" "AAAAAA").1 "AAAAAA" = none ∧
    lookupSession (disconnect stW "h").1 "AAAAAA" = none ∧
    lookupSession (disconnect stW "x").1 "AAAAAA" =
      lookupSession stW "AAAAAA" ∧
    lookupSession (disconnect (run hostDisconnectTrace) "h").1 "BBBBBB" =
      lookupSession (run hostDisconnectTrace) "BBBBBB" ∧
    lookupSession (leaveSession stW "g" "AAAAAA").1 "AAAAAA" = some "h" ∧
    lookupSession (disconnectV2 stW "g").1 "AAAAAA" = some "h" :=
  ⟨by decide,
   (C1_host_departure_ends_session.1 stW "h" "AAAAAA" (by decide) (by decide)).1,
   (C1_host_departure_ends_session.2.2.1 stW "h" "AAAAAA"
     (by decide) (by decide)).1,
   C1_host_departure_ends_session.2.2.2.2.1 stW "x" "AAAAAA" (by decide),
   C1_host_departure_ends_session.2.2.2.2.2.2.1 (run hostDisconnectTrace)
     "h" "BBBBBB" "AAAAAA" (by decide) (by decide),
   C1_host_departure_ends_session.2.2.2.2.2.2.2.2.1 stW "g" "AAAAAA" "h"
     (by decide) (by decide),
   C1_host_departure_ends_session.2.2.2.2.2.2.2.2.2.2.2 stW "g" "AAAAAA" "h"
     (by decide) (by decide)⟩

/-- C4 counterexample: the claim quantifies over every `newHostId`.  At
`newHostId = "h"` (the old host itself) the old host's subsequent
`playback-control` broadcasts instead of failing with NotHost, and at
`newHostId = "Z"` (an identifier with no connection in the room — transfer
does not verify membership) the new host's `playback-control` emits the
NotHost error instead of broadcasting. -/
theorem C4_counterexample :
    (playbackControl (transferHost stW "h" "AAAAAA" "h").1 "h" 0).2 =
      [Emission.mk ["h", "g"] "playback-control" [("data", Val.o 0)]] ∧
    (playbackControl (transferHost stW "h" "AAAAAA" "Z").1 "Z" 0).2 =
      [Emission.mk ["Z"] "error"
        [("message", Val.s "Only host can control playback")]] :=
  ⟨by decide, by decide⟩

/-- C4 (amended): after a successful `transfer-host(code, newHostId)` with
`newHostId ≠ h`, provided the membership scan of the old host `h` and of
the connection `newHostId` both resolve to this session (in particular
`newHostId` is a room member), a subsequent `playback-control` from `h`
emits only the NotHost error to `h`, and one from `newHostId` broadcasts
the `playback-control` event to the whole room. -/
theorem C4_transfer_then_playback :
    ∀ st code ho n d, code ≠ "" → lookupSession st code = some ho → n ≠ ho →
      currentCode (transferHost st ho code n).1 ho = some code →
      currentCode (transferHost st ho code n).1 n = some code →
      lookupSession (transferHost st ho code n).1 code = some n ∧
      playbackControl (transferHost st ho code n).1 ho d =
        ((transferHost st ho code n).1,
         [emitSelf ho "error"
           [("message", Val.s "Only host can control playback")]]) ∧
      playbackControl (transferHost st ho code n).1 n d =
        ((transferHost st ho code n).1,
         [emitRoom (transferHost st ho code n).1 code "playback-control"
            [("data", Val.o d)]]) := by
  intro st code ho n d hcode hl hne hch hcn
  have hcond : ¬ (code = "" ∨ ¬ sessionsHas st code) := by
    push_neg
    exact ⟨hcode, by simp [sessionsHas, hl]⟩
  have hnn : ¬ (lookupSession st code ≠ some ho) := by
    rw [hl]
    exact fun hx => hx rfl
  have hst : (transferHost st ho code n).1 =
      { st with sessions := setSession st.sessions code n } := by
    simp only [transferHost, if_neg hcond, if_neg hnn]
  have hlook : lookupSession (transferHost st ho code n).1 code = some n := by
    rw [hst]
    exact listLookup_setSession_self st.sessions code n
  refine ⟨hlook, ?_, ?_⟩
  · simp only [playbackControl, hch]
    rw [if_pos (by rw [hlook]; intro hx; exact hne (Option.some.inj hx))]
  · simp only [playbackControl, hcn]
    rw [if_neg (by rw [hlook]; exact fun hx => hx rfl)]

theorem C4_witness :
    lookupSession stW "AAAAAA" = some "h" ∧
    playbackControl (transferHost stW "h" "AAAAAA" "g").1 "h" 0 =
      ((transferHost stW "h" "AAAAAA" "g").1,
       [emitSelf "h" "error"
         [("message", Val.s "Only host can control playback")]]) ∧
    playbackControl (transferHost stW "h" "AAAAAA" "g").1 "g" 0 =
      ((transferHost stW "h" "AAAAAA" "g").1,
       [emitRoom (transferHost stW "h" "AAAAAA" "g").1 "AAAAAA"
          "playback-control" [("data", Val.o 0)]]) :=
  ⟨by decide,
   (C4_transfer_then_playback stW "AAAAAA" "h" "g" 0 (by decide) (by decide)
     (by decide) (by decide) (by decide)).2⟩

/-- C5 counterexample: in the index.ts variant, guest `"g"` (display name
`"Sam"` recorded) leaves and the `user-left` broadcast carries only the
`userId` — no `name` field. -/
theorem C5_counterexample :
    (leaveSession stW "g" "AAAAAA").2 =
      [Emission.mk ["h"] "user-left" [("userId", Val.s "g")]] ∧
    (Emission.mk ["h"] "user-left" [("userId", Val.s "g")]).payload.lookup
      "name" = none :=
  ⟨by decide, by decide⟩

/-- C5 (amended): the `user-left` broadcast (the first emission of the
leave and disconnect handlers) carries both the leaver's `userId` and their
display name (recorded name, else `"Guest"`) in the part_000 variant; in
the index.ts variant it carries only the `userId`. -/
theorem C5_user_left_payloads :
    (∀ st sid code, code ≠ "" → lookupSession st code ≠ none →
      (leaveSessionV2 st sid code).2.head? =
        some (emitRoom (leaveRoom st sid code) code "user-left"
          [("userId", Val.s sid), ("name", Val.s (leftName st sid))])) ∧
    (∀ st sid code, currentCode st sid = some code →
      (disconnectV2 st sid).2.head? =
        some (emitRoom st code "user-left"
          [("userId", Val.s sid), ("name", Val.s (leftName st sid))])) ∧
    (∀ st sid code, code ≠ "" → lookupSession st code ≠ none →
      (leaveSession st sid code).2.head? =
        some (emitRoom (leaveRoom st sid code) code "user-left"
          [("userId", Val.s sid)])) ∧
    (∀ st sid code, currentCode st sid = some code →
      (disconnect st sid).2.head? =
        some (emitRoom st code "user-left" [("userId", Val.s sid)])) := by
  refine ⟨?_, ?_, ?_, ?_⟩
  · intro st sid code hcode hnn
    have hcond : ¬ (code = "" ∨ ¬ sessionsHas st code) := by
      push_neg
      refine ⟨hcode, ?_⟩
      show (lookupSession st code).isSome = true
      exact Option.ne_none_iff_isSome.mp hnn
    simp only [leaveSessionV2, if_neg hcond]
    by_cases hh : lookupSession (leaveRoom st sid code) code = some sid
    · rw [if_pos hh]
      simp only [List.head?_cons, leftName_leaveRoom]
    · rw [if_neg hh]
      simp only [List.head?_cons, leftName_leaveRoom]
  · intro st sid code hcc
    simp only [disconnectV2, hcc]
    split <;> rfl
  · intro st sid code hcode hnn
    have hcond : ¬ (code = "" ∨ ¬ sessionsHas st code) := by
      push_neg
      refine ⟨hcode, ?_⟩
      show (lookupSession st code).isSome = true
      exact Option.ne_none_iff_isSome.mp hnn
    simp only [leaveSession, if_neg hcond]
    by_cases hh : lookupSession (leaveRoom st sid code) code = some sid
    · rw [if_pos hh]
      rfl
    · rw [if_neg hh]
      rfl
  · intro st sid code hcc
    simp only [disconnect, hcc]
    split <;> rfl

theorem C5_witness :
    (leaveSessionV2 stW "g" "AAAAAA").2.head? =
      some (emitRoom (leaveRoom stW "g" "AAAAAA") "AAAAAA" "user-left"
        [("userId", Val.s "g"), ("name", Val.s (leftName stW "g"))]) ∧
    (leaveSession stW "g" "AAAAAA").2.head? =
      some (emitRoom (leaveRoom stW "g" "AAAAAA") "AAAAAA" "user-left"
        [("userId", Val.s "g")]) :=
  ⟨C5_user_left_payloads.1 stW "g" "AAAAAA" (by decide) (by decide),
   C5_user_left_payloads.2.2.1 stW "g" "AAAAAA" (by decide) (by decide)⟩

/-- C6 counterexample: caller `"h"` has no recorded display name and
supplies `user = " Al"` (non-blank); the part_000 variant broadcasts the
trimmed `"Al"`, not the supplied `" Al"` field. -/
theorem C6_counterexample :
    (chatMessageV2 stW "h" " Al" "hi" "t").2 =
      [Emission.mk ["h", "g"] "chat-message"
        [("user", Val.s "Al"), ("message", Val.s "hi"), ("time", Val.s "t")]] ∧
    " Al" ≠ "Al" :=
  ⟨by decide, by decide⟩

/-- C6 (amended): the `user` field of the broadcast `chat-message` is the
caller's recorded display name when one was recorded (at join time it is
always non-empty), else the trimmed supplied `user` field when non-blank,
else `"Guest"` — in the part_000 variant; the index.ts variant records no
names and uses the supplied `user` field verbatim when non-blank, else
`"Guest"`. -/
theorem C6_chat_display_name :
    (∀ st sid user message time code, currentCode st sid = some code →
      (∀ d, recordedName st sid = some d → d ≠ "") →
      (chatMessageV2 st sid user message time).2 =
        [emitRoom st code "chat-message"
          [("user", Val.s (chatNameSpec (recordedName st sid) user)),
           ("message", Val.s message), ("time", Val.s time)]]) ∧
    (∀ st sid user message time code, currentCode st sid = some code →
      (chatMessage st sid user message time).2 =
        [emitRoom st code "chat-message"
          [("user", Val.s (chatNameSpecV1 user)),
           ("message", Val.s message), ("time", Val.s time)]]) := by
  constructor
  · intro st sid user message time code hcc hrec
    simp only [chatMessageV2, hcc]
    cases hr : recordedName st sid with
    | none =>
      simp only [chatNameSpec]
      by_cases ht : jsTrim user = ""
      · rw [if_neg (by simp [ht]), if_neg (by simp [ht])]
      · rw [if_pos ((jsTrim_ne_empty_iff user).mpr ht), if_pos ht]
    | some d =>
      have hd : d ≠ "" := hrec d hr
      simp only [chatNameSpec]
      rw [if_pos hd]
  · intro st sid user message time code hcc
    simp only [chatMessage, hcc, chatNameSpecV1]
    by_cases ht : jsTrim user = ""
    · rw [if_neg (by simp [ht]), if_neg (by simp [ht])]
    · rw [if_pos ((jsTrim_ne_empty_iff user).mpr ht), if_pos ht]

theorem C6_witness :
    currentCode stW "g" = some "AAAAAA" ∧
    (chatMessageV2 stW "g" "" "hi" "t").2 =
      [emitRoom stW "AAAAAA" "chat-message"
        [("user", Val.s (chatNameSpec (recordedName stW "g") "")),
         ("message", Val.s "hi"), ("time", Val.s "t")]] ∧
    (chatMessage stW "g" "Bob" "hi" "t").2 =
      [emitRoom stW "AAAAAA" "chat-message"
        [("user", Val.s (chatNameSpecV1 "Bob")),
         ("message", Val.s "hi"), ("time", Val.s "t")]] :=
  ⟨by decide,
   C6_chat_display_name.1 stW "g" "" "hi" "t" "AAAAAA" (by decide) (by
     intro d hd
     have hr : recordedName stW "g" = some "Sam" := by decide
     rw [hr] at hd
     cases hd
     decide),
   C6_chat_display_name.2 stW "g" "Bob" "hi" "t" "AAAAAA" (by decide)⟩

/-- C9 counterexample: a reachable state violating single membership —
`"h1"` creates session `"AAAAAA"` and then joins `"h2"`'s session
`"BBBBBB"` without leaving; afterwards `"h1"` is a member of two active
sessions. -/
theorem C9_counterexample :
    memberSessions (run doubleJoinTrace) "h1" = ["AAAAAA", "BBBBBB"] ∧
    (memberSessions (run doubleJoinTrace) "h1").length = 2 :=
  ⟨by decide, by decide⟩

/-- C9 (amended): single membership is not an invariant the handlers
enforce — `join-session` adds the joined code to the caller's memberships
without removing any existing one, so a participant already in a session
who joins another ends up a member of both; at most one membership holds
only under the client-side assumption that participants create/join from a
session-free state. -/
theorem C9_join_adds_membership :
    ∀ st sid code name cb k ho,
      findSocket st sid = some k → code ∉ k.rooms → code ≠ "" →
      code ≠ sid → lookupSession st code = some ho →
      memberSessions (joinSession st sid code name cb).1 sid =
        memberSessions st sid ++ [code] := by
  intro st sid code name cb k ho hk hnotin hcode hcs hl
  have hcond : ¬ (code = "" ∨ ¬ sessionsHas st code) := by
    push_neg
    exact ⟨hcode, by simp [sessionsHas, hl]⟩
  have hks : k.sid = sid := by
    have hp := List.find?_some hk
    simpa [beq_iff_eq] using hp
  have hmap : findSocket (joinRoom st sid code) sid =
      some { k with rooms := k.rooms ++ [code] } := by
    rw [show joinRoom st sid code = { st with sockets := st.sockets.map (fun x =>
          if x.sid = sid then
            { x with rooms := if code ∈ x.rooms then x.rooms else x.rooms ++ [code] }
          else x) } from rfl,
      findSocket_map st sid _ (by intro x; by_cases hx : x.sid = sid <;> simp [hx]),
      hk]
    simp [hks, hnotin]
  have hsess : ∀ r, sessionsHas (joinRoom st sid code) r = sessionsHas st r :=
    fun r => rfl
  simp only [joinSession, if_neg hcond]
  show memberSessions (joinRoom st sid code) sid = _
  unfold memberSessions
  rw [hmap, hk]
  simp only [hsess]
  rw [List.filter_append]
  have hp : (code != sid && sessionsHas st code) = true := by
    simp [bne_iff_ne, hcs, sessionsHas, hl]
  simp [hp]

theorem C9_witness :
    findSocket st9 "h1" = some (SocketCtx.mk "h1" ["h1", "AAAAAA"] none) ∧
    memberSessions (joinSession st9 "h1" "BBBBBB" "Sam" true).1 "h1" =
      memberSessions st9 "h1" ++ ["BBBBBB"] :=
  ⟨by decide,
   C9_join_adds_membership st9 "h1" "BBBBBB" "Sam" true
     (SocketCtx.mk "h1" ["h1", "AAAAAA"] none) "h2"
     (by decide) (by decide) (by decide) (by decide) (by decide)⟩

/-- C8: `generateCode` only returns 6-character strings over `A-Z0-9` that
are not keys of the Registry; consequently, in every state reachable by any
event sequence the codes of simultaneously active sessions are pairwise
distinct, while a code whose session has been deleted may be issued again
(witnessed by a concrete create/leave/re-generate trace). -/
theorem C8_generated_codes_unique :
    (∀ st ent code, generateCode st ent = some code →
      code.length = 6 ∧ (∀ ch ∈ code.data, ch ∈ codeChars) ∧
        lookupSession st code = none) ∧
    (∀ evs, ((run evs).sessions.map Prod.fst).Nodup) ∧
    (lookupSession (run (reissueTrace.take 2)) "AAAAAA" = some "h" ∧
     lookupSession (run reissueTrace) "AAAAAA" = none ∧
     generateCode (run reissueTrace) [fun _ => (0 : Fin 36)] = some "AAAAAA") := by
  refine ⟨?_, ?_, by decide, by decide, by decide⟩
  · intro st ent code hg
    exact generateCode_fresh st ent code hg
  · intro evs
    exact registryKeysNodup_run evs

theorem C8_witness :
    generateCode stW [fun _ => (1 : Fin 36)] = some "BBBBBB" ∧
    "BBBBBB".length = 6 ∧ lookupSession stW "BBBBBB" = none :=
  ⟨by decide,
   (C8_generated_codes_unique.1 stW [fun _ => (1 : Fin 36)] "BBBBBB"
     (by decide)).1,
   (C8_generated_codes_unique.1 stW [fun _ => (1 : Fin 36)] "BBBBBB"
     (by decide)).2.2⟩

end SocketV
